import Mathlib

/-!
Shallow embedding of the glasslabs iotawatt looking-glass module.

The repository carries two versions of the module source:

* `VariantB` embeds `iotawatt.go`: fine polling, every raw row is emitted,
  channel values are divided by 1000, and a failing fetch or a failing
  series encode ends the worker (the loop body executes `return` there).
* `VariantA` embeds the coarse version (`src/unnamed/part_000`): the current
  total is read from the last raw row in native units, the series keeps only
  rows whose truncated timestamp is divisible by 20, and failing ticks
  `continue` to the next tick.

Numeric float64 values are modelled as rationals; Go slice indexing is
modelled in `Except GoPanic` so that an out-of-range access is an explicit
runtime panic value. External fallible calls (HTTP transport, JSON body
decoding, JSON encoding of the series, UI script evaluation) are modelled by
oracle inputs recording their outcome, since the module only branches on
whether each of them failed.
-/

namespace IotaWatt

/-- A Go runtime panic raised by slice indexing; in a detached goroutine
without recover it crashes the whole process. -/
inductive GoPanic where
  | indexOutOfRange
deriving DecidableEq

/-- float64 values of the module, modelled as rationals. -/
abbrev Val := ℚ

/-- One decoded response row: a slice of float64. -/
abbrev Row := List Val

/-- One chart point: timestamp and value. -/
abbrev Point := Val × Val

/-- The per-channel series data built by the aggregation loops. -/
abbrev SeriesData := List (List Point)

/-- Go slice access row[i]: panics when out of range. -/
def getVal (row : Row) (i : Nat) : Except GoPanic Val :=
  match row[i]? with
  | some v => Except.ok v
  | none => Except.error GoPanic.indexOutOfRange

/-- Go access raw[len(raw)-1]: panics when raw is empty. -/
def getLastRow (raw : List Row) : Except GoPanic Row :=
  match raw.getLast? with
  | some r => Except.ok r
  | none => Except.error GoPanic.indexOutOfRange

/-- Total slice access used only to state specifications: row[i] with
default 0. -/
def nth (row : Row) (i : Nat) : Val := (row[i]?).getD 0

/-- Go conversion int(x) on a float64: truncation toward zero. -/
def goInt (q : ℚ) : Int := q.num.tdiv q.den

/-- Fold a fallible Go loop body over a list, stopping at the first panic. -/
def foldE (f : σ → α → Except ε σ) (init : σ) : List α → Except ε σ
  | [] => Except.ok init
  | a :: as =>
    match f init a with
    | Except.ok s => foldE f s as
    | Except.error e => Except.error e

/-- Outcome of one HTTP exchange, as far as the module observes it. -/
structure NetOracle where
  transportOk : Bool
  status : Nat
  body : Option (List Row)
deriving DecidableEq

/-- The error classes Module.request can surface to its caller. -/
inductive ReqErr where
  | transport
  | unexpectedStatus
  | decode
deriving DecidableEq

/-- Module.request (identical in both sources): one GET, a non-200 status is
rejected before decoding, and the decoded rows are returned on success. -/
def request (o : NetOracle) : Except ReqErr (List Row) :=
  if o.transportOk = false then Except.error ReqErr.transport
  else if o.status ≠ 200 then Except.error ReqErr.unexpectedStatus
  else
    match o.body with
    | none => Except.error ReqErr.decode
    | some rows => Except.ok rows

/-- The select parameter value built in New from the configured inputs. -/
def selectValue (inputs : List String) : String :=
  "[" ++ String.intercalate "," ("time.utc.unix" :: inputs) ++ "]"

/-- url.Values.Set on the map-of-lists model of url.Values. -/
def valuesSet (v : String → List String) (key val : String) : String → List String :=
  fun k => if k = key then [val] else v k

/-- Outcome oracle for the UI Eval calls of one tick. -/
structure EvalOracle where
  currentOk : Bool
  seriesOk : Bool
  chartOk : Bool
deriving DecidableEq

/-- Environment of one tick: the network exchange and the outcomes of the
json.Marshal call and of the UI Eval calls. -/
structure TickEnv where
  net : NetOracle
  encodeOk : Bool
  eval : EvalOracle
deriving DecidableEq

/-- The display-surface mutations of the render sequence. -/
inductive MutTag where
  | current
  | series
  | chart
deriving DecidableEq

/-- Logger messages the loop can emit during one tick. -/
inductive LogMsg where
  | fetchFailed
  | encodeFailed
  | currentFailed
  | seriesFailed
  | chartFailed
deriving DecidableEq

/-- How one tick body ends: proceed to wait for the next tick, return from
run (the worker exits), or panic. -/
inductive TickExit where
  | nextTick
  | workerReturn
  | panicked
deriving DecidableEq

/-- Observable trace of one tick body: logs emitted, display mutations
issued in order, and how the body ended. -/
structure TickTrace where
  logs : List LogMsg
  mutations : List MutTag
  exit : TickExit
deriving DecidableEq

namespace VariantB

/-- The url.Values literal built in New of iotawatt.go. -/
def qryInit : String → List String := fun k =>
  if k = "format" then ["json"]
  else if k = "resolution" then ["high"]
  else if k = "missing" then ["null"]
  else if k = "begin" then ["s-1h"]
  else if k = "end" then ["s"]
  else if k = "group" then ["auto"]
  else []

/-- qryVals after New sets the select key; built once and never written
again. -/
def qryVals (inputs : List String) : String → List String :=
  valuesSet qryInit "select" (selectValue inputs)

/-- Inner channel loop body of the aggregation in run: kw is row[i]/1000,
the point (row[0], kw) is appended to series[i-1], and kw is added to the
row total. Go evaluates row[i] before row[0]. -/
def chanStep (row : Row) (st : Val × SeriesData) (j : Nat) :
    Except GoPanic (Val × SeriesData) :=
  match getVal row (j + 1), getVal row 0 with
  | Except.ok v, Except.ok t =>
    Except.ok (st.1 + v / 1000, st.2.set j ((st.2.getD j []) ++ [(t, v / 1000)]))
  | Except.error e, _ => Except.error e
  | Except.ok _, Except.error e => Except.error e

/-- One raw row of the aggregation loop in run: curr restarts at 0 for each
row. -/
def aggRow (l : Nat) (s : SeriesData) (row : Row) : Except GoPanic (Val × SeriesData) :=
  foldE (chanStep row) (0, s) (List.range l)

/-- The aggregation loop of run in iotawatt.go: current is overwritten with
curr after every row, the series starts as l empty channels. -/
def aggregate (l : Nat) (raw : List Row) : Except GoPanic (Val × SeriesData) :=
  foldE (fun st row => aggRow l st.2 row) (0, List.replicate l []) raw

/-- One pass of the loop body in run of iotawatt.go: a fetch error logs and
returns from run; a panic during aggregation ends the goroutine; an encode
error logs and returns from run; otherwise the three Eval mutations are
issued in order, each logging its own failure. -/
def tick (l : Nat) (env : TickEnv) : TickTrace :=
  match request env.net with
  | Except.error _ => ⟨[LogMsg.fetchFailed], [], TickExit.workerReturn⟩
  | Except.ok raw =>
    match aggregate l raw with
    | Except.error _ => ⟨[], [], TickExit.panicked⟩
    | Except.ok _ =>
      if env.encodeOk = false then ⟨[LogMsg.encodeFailed], [], TickExit.workerReturn⟩
      else
        ⟨(if env.eval.currentOk then [] else [LogMsg.currentFailed]) ++
            (if env.eval.seriesOk then [] else [LogMsg.seriesFailed]) ++
            (if env.eval.chartOk then [] else [LogMsg.chartFailed]),
          [MutTag.current, MutTag.series, MutTag.chart], TickExit.nextTick⟩

end VariantB

namespace VariantA

/-- The url.Values literal built in New of the coarse source. -/
def qryInit : String → List String := fun k =>
  if k = "format" then ["json"]
  else if k = "resolution" then ["low"]
  else if k = "missing" then ["skip"]
  else if k = "begin" then ["s-1h"]
  else if k = "end" then ["s"]
  else if k = "group" then ["auto"]
  else []

/-- qryVals after New sets the select key. -/
def qryVals (inputs : List String) : String → List String :=
  valuesSet qryInit "select" (selectValue inputs)

/-- One iteration of the current total loop: current += raw[len(raw)-1][i],
re-reading the last row each time. -/
def currentStep (raw : List Row) (c : Val) (j : Nat) : Except GoPanic Val :=
  match getLastRow raw with
  | Except.error e => Except.error e
  | Except.ok last =>
    match getVal last (j + 1) with
    | Except.error e => Except.error e
    | Except.ok v => Except.ok (c + v)

/-- The current total loop of run in the coarse source. -/
def currentTotal (l : Nat) (raw : List Row) : Except GoPanic Val :=
  foldE (currentStep raw) 0 (List.range l)

/-- Inner channel loop body of the series loop: append (row[0], row[j]) to
series[j-1]. -/
def chanPoint (row : Row) (t : Val) (s : SeriesData) (j : Nat) : Except GoPanic SeriesData :=
  match getVal row (j + 1) with
  | Except.error e => Except.error e
  | Except.ok v => Except.ok (s.set j ((s.getD j []) ++ [(t, v)]))

/-- One raw row of the series loop: skipped unless int(row[0]) % 20 == 0. -/
def seriesRow (l : Nat) (s : SeriesData) (row : Row) : Except GoPanic SeriesData :=
  match getVal row 0 with
  | Except.error e => Except.error e
  | Except.ok t =>
    if Int.tmod (goInt t) 20 ≠ 0 then Except.ok s
    else foldE (chanPoint row t) s (List.range l)

/-- The series loop of run in the coarse source. -/
def seriesData (l : Nat) (raw : List Row) : Except GoPanic SeriesData :=
  foldE (seriesRow l) (List.replicate l []) raw

/-- The aggregation step of run in the coarse source: the current total loop
runs first, then the series loop. -/
def aggregate (l : Nat) (raw : List Row) : Except GoPanic (Val × SeriesData) :=
  match currentTotal l raw with
  | Except.error e => Except.error e
  | Except.ok current =>
    match seriesData l raw with
    | Except.error e => Except.error e
    | Except.ok s => Except.ok (current, s)

/-- One pass of the loop body in run of the coarse source after the ticker
fires: fetch errors log and continue; a panic during aggregation ends the
goroutine; renderCurrent runs and logs its own failure; an encode error then
logs and continues, leaving only the current mutation issued; otherwise the
series and chart mutations follow, each logging its own failure. -/
def tick (l : Nat) (env : TickEnv) : TickTrace :=
  match request env.net with
  | Except.error _ => ⟨[LogMsg.fetchFailed], [], TickExit.nextTick⟩
  | Except.ok raw =>
    match aggregate l raw with
    | Except.error _ => ⟨[], [], TickExit.panicked⟩
    | Except.ok _ =>
      if env.encodeOk = false then
        ⟨(if env.eval.currentOk then [] else [LogMsg.currentFailed]) ++ [LogMsg.encodeFailed],
          [MutTag.current], TickExit.nextTick⟩
      else
        ⟨(if env.eval.currentOk then [] else [LogMsg.currentFailed]) ++
            (if env.eval.seriesOk then [] else [LogMsg.seriesFailed]) ++
            (if env.eval.chartOk then [] else [LogMsg.chartFailed]),
          [MutTag.current, MutTag.series, MutTag.chart], TickExit.nextTick⟩

end VariantA

/-- A branch of the Go select over the done channel and the ticker. -/
inductive SelChoice where
  | done
  | tick
deriving DecidableEq

/-- What the worker loop does once the select resolves. -/
inductive SelOutcome where
  | exited
  | startBody
deriving DecidableEq

/-- Go select over the done channel and the ticker channel: any ready branch
may be chosen, and Go picks uniformly at random among the ready branches, so
the choice is an input here; choosing a branch that is not ready is not a
legal resolution (none). The done branch is ready exactly when the channel
has been closed; taking it returns from run, while taking the ticker branch
runs the loop body, which starts with the fetch. -/
def selectStep (doneClosed tickerReady : Bool) : SelChoice → Option SelOutcome
  | SelChoice.done => if doneClosed then some SelOutcome.exited else none
  | SelChoice.tick => if tickerReady then some SelOutcome.startBody else none

/-- Outcome of the Go builtin close. -/
inductive CloseOutcome where
  | ok
  | panicked
deriving DecidableEq

/-- The done channel, observed through whether it has been closed. -/
structure DoneChan where
  closed : Bool
deriving DecidableEq

/-- Go builtin close on a channel: closing an already closed channel
panics. -/
def closeChan (d : DoneChan) : CloseOutcome × DoneChan :=
  if d.closed then (CloseOutcome.panicked, d) else (CloseOutcome.ok, ⟨true⟩)

/-- Module.Close (identical in both sources): it closes done
unconditionally and returns nil. -/
def ModuleClose (d : DoneChan) : CloseOutcome × DoneChan := closeChan d

/-! Helper lemmas about the embedding. -/

theorem getVal_eq_nth (row : Row) (i : Nat) (h : i < row.length) :
    getVal row i = Except.ok (nth row i) := by
  simp [getVal, nth, List.getElem?_eq_getElem h]

theorem getLastIsSome_cons (r : Row) (rows : List Row) :
    ((r :: rows).getLast?).isSome := by
  induction rows generalizing r with
  | nil => simp
  | cons r2 rows2 ih => rw [List.getLast?_cons_cons]; exact ih r2

theorem getLast_map_getD_cons (g : Row → Val) (r : Row) (rows : List Row) (c0 : Val) :
    (((r :: rows).getLast?).map g).getD c0 = ((rows.getLast?).map g).getD (g r) := by
  cases rows with
  | nil => simp
  | cons r2 rows2 =>
    rw [List.getLast?_cons_cons]
    rcases h : (r2 :: rows2).getLast? with _ | y
    · have hsome := getLastIsSome_cons r2 rows2
      rw [h] at hsome
      simp at hsome
    · simp

theorem mem_of_getLastSome : ∀ (rows : List Row) (r : Row), rows.getLast? = some r → r ∈ rows
  | [], _, h => by simp at h
  | [a], r, h => by simp at h; simp [h]
  | a :: b :: bs, r, h => by
    rw [List.getLast?_cons_cons] at h
    exact List.mem_cons_of_mem a (mem_of_getLastSome (b :: bs) r h)

/-- Characterization of the fine aggregation loop over one configured input:
starting from any accumulator, every row appends its converted point and the
running total is overwritten with the converted channel value of each row. -/
theorem foldB_one (rows : List Row) :
    ∀ (c0 : Val) (s0 : List Point), (∀ r ∈ rows, 2 ≤ r.length) →
    foldE (fun st row => VariantB.aggRow 1 st.2 row) (c0, [s0]) rows =
      Except.ok ((rows.getLast?.map fun r => nth r 1 / 1000).getD c0,
        [s0 ++ rows.map fun r => (nth r 0, nth r 1 / 1000)]) := by
  induction rows with
  | nil => intro c0 s0 h; simp [foldE]
  | cons r rows ih =>
    intro c0 s0 h
    have hr : 2 ≤ r.length := h r (by simp)
    have h0 : 0 < r.length := by omega
    have h1 : 1 < r.length := by omega
    have hrow : VariantB.aggRow 1 [s0] r =
        Except.ok (nth r 1 / 1000, [s0 ++ [(nth r 0, nth r 1 / 1000)]]) := by
      simp [VariantB.aggRow, VariantB.chanStep, foldE, getVal_eq_nth r 0 h0,
        getVal_eq_nth r 1 h1, List.range_succ, List.range_zero]
    simp only [foldE, hrow]
    rw [ih (nth r 1 / 1000) (s0 ++ [(nth r 0, nth r 1 / 1000)])
      (fun x hx => h x (by simp [hx]))]
    rw [getLast_map_getD_cons]
    simp

/-- The coarse current total over one configured input reads channel 1 of
the last raw row. -/
theorem currentTotal_one (rows : List Row) (r : Row) (hlast : rows.getLast? = some r)
    (hr : 2 ≤ r.length) : VariantA.currentTotal 1 rows = Except.ok (nth r 1) := by
  have h1 : 1 < r.length := by omega
  simp [VariantA.currentTotal, VariantA.currentStep, foldE, getLastRow, hlast,
    getVal_eq_nth r 1 h1, List.range_succ, List.range_zero]

/-- Characterization of the coarse series loop over one configured input:
exactly the rows whose truncated timestamp is divisible by 20 are emitted,
in order, in native units. -/
theorem foldA_one (rows : List Row) :
    ∀ (s0 : List Point), (∀ r ∈ rows, 2 ≤ r.length) →
    foldE (VariantA.seriesRow 1) [s0] rows =
      Except.ok [s0 ++ (rows.filter fun r => decide (Int.tmod (goInt (nth r 0)) 20 = 0)).map
        (fun r => (nth r 0, nth r 1))] := by
  induction rows with
  | nil => intro s0 h; simp [foldE]
  | cons r rows ih =>
    intro s0 h
    have hr : 2 ≤ r.length := h r (by simp)
    have h0 : 0 < r.length := by omega
    have h1 : 1 < r.length := by omega
    by_cases hc : Int.tmod (goInt (nth r 0)) 20 = 0
    · have hrow : VariantA.seriesRow 1 [s0] r =
          Except.ok [s0 ++ [(nth r 0, nth r 1)]] := by
        simp [VariantA.seriesRow, VariantA.chanPoint, foldE, getVal_eq_nth r 0 h0,
          getVal_eq_nth r 1 h1, hc, List.range_succ, List.range_zero]
      simp only [foldE, hrow]
      rw [ih _ (fun x hx => h x (by simp [hx]))]
      simp [hc, List.filter_cons]
    · have hrow : VariantA.seriesRow 1 [s0] r = Except.ok [s0] := by
        simp [VariantA.seriesRow, getVal_eq_nth r 0 h0, hc]
      simp only [foldE, hrow]
      rw [ih _ (fun x hx => h x (by simp [hx]))]
      simp [hc, List.filter_cons]

/-! Claim theorems. -/

/-- C1: on an empty raw row list the fine variant (iotawatt.go) yields a
current total of 0 and one empty series per configured channel for every
configuration, but the coarse variant (part_000) evaluates
raw[len(raw)-1] and panics with an out-of-range access whenever at least
one input is configured, so the claim fails on the coarse code. -/
theorem emptyRows_aggregation :
    (∀ l : Nat, VariantB.aggregate l [] = Except.ok (0, List.replicate l [])) ∧
    VariantA.aggregate 1 [] = Except.error GoPanic.indexOutOfRange := by
  constructor
  · intro l; simp [VariantB.aggregate, foldE]
  · norm_num [VariantA.aggregate, VariantA.currentTotal, VariantA.currentStep, foldE,
      getLastRow, List.range_succ, List.range_zero]

/-- C3: a raw row with fewer than 1 + N numeric values makes both variants
panic instead of abandoning the tick: with one configured input and the raw
row [100], the aggregation of both variants hits an out-of-range slice
access, and the tick of both variants ends in a panic with no log. -/
theorem shortRow_aggregation :
    VariantB.aggregate 1 [[100]] = Except.error GoPanic.indexOutOfRange ∧
    VariantA.aggregate 1 [[100]] = Except.error GoPanic.indexOutOfRange ∧
    VariantB.tick 1 ⟨⟨true, 200, some [[100]]⟩, true, ⟨true, true, true⟩⟩ =
      ⟨[], [], TickExit.panicked⟩ ∧
    VariantA.tick 1 ⟨⟨true, 200, some [[100]]⟩, true, ⟨true, true, true⟩⟩ =
      ⟨[], [], TickExit.panicked⟩ := by
  have hb : VariantB.aggregate 1 [[100]] = Except.error GoPanic.indexOutOfRange := by
    norm_num [VariantB.aggregate, foldE, VariantB.aggRow, VariantB.chanStep, getVal,
      List.range_succ, List.range_zero]
  have ha : VariantA.aggregate 1 [[100]] = Except.error GoPanic.indexOutOfRange := by
    norm_num [VariantA.aggregate, VariantA.currentTotal, VariantA.currentStep, foldE, getVal,
      getLastRow, List.range_succ, List.range_zero]
  refine ⟨hb, ha, ?_, ?_⟩
  · simp [VariantB.tick, request, hb]
  · simp [VariantA.tick, request, ha]

/-- C2 counterexample: in the fine variant (iotawatt.go) a fetch failure at
a tick is logged and then the loop body executes return, so the worker
exits instead of firing the next tick, refuting the claim that per-tick
failures never terminate the worker. -/
theorem variantB_fetch_error_exits_cex :
    VariantB.tick 1 ⟨⟨true, 500, none⟩, true, ⟨true, true, true⟩⟩ =
      ⟨[LogMsg.fetchFailed], [], TickExit.workerReturn⟩ ∧
    TickExit.workerReturn ≠ TickExit.nextTick := ⟨rfl, by decide⟩

/-- C2 amended: per-tick fetch and encode failures are logged; in the
coarse variant (part_000) they abandon only the tick and the loop proceeds
to the next tick, while in the fine variant (iotawatt.go) they log and
terminate the worker; when fetch, aggregation and encode succeed, render
failures never end the worker in either variant. -/
theorem tick_error_policy (l : Nat) (env : TickEnv) :
    (∀ e, request env.net = Except.error e →
      VariantA.tick l env = ⟨[LogMsg.fetchFailed], [], TickExit.nextTick⟩ ∧
      VariantB.tick l env = ⟨[LogMsg.fetchFailed], [], TickExit.workerReturn⟩) ∧
    (∀ raw agg, request env.net = Except.ok raw → VariantB.aggregate l raw = Except.ok agg →
      env.encodeOk = false →
      VariantB.tick l env = ⟨[LogMsg.encodeFailed], [], TickExit.workerReturn⟩) ∧
    (∀ raw agg, request env.net = Except.ok raw → VariantA.aggregate l raw = Except.ok agg →
      env.encodeOk = false →
      (VariantA.tick l env).exit = TickExit.nextTick ∧
        LogMsg.encodeFailed ∈ (VariantA.tick l env).logs) ∧
    (∀ raw aggA aggB, request env.net = Except.ok raw →
      VariantA.aggregate l raw = Except.ok aggA → VariantB.aggregate l raw = Except.ok aggB →
      env.encodeOk = true →
      (VariantA.tick l env).exit = TickExit.nextTick ∧
        (VariantB.tick l env).exit = TickExit.nextTick) := by
  refine ⟨?_, ?_, ?_, ?_⟩
  · intro e hreq
    constructor <;> simp [VariantA.tick, VariantB.tick, hreq]
  · intro raw agg hreq hagg henc
    simp [VariantB.tick, hreq, hagg, henc]
  · intro raw agg hreq hagg henc
    simp [VariantA.tick, hreq, hagg, henc]
  · intro raw aggA aggB hreq haggA haggB henc
    constructor <;> simp [VariantA.tick, VariantB.tick, hreq, haggA, haggB, henc]

theorem tick_error_policy_witness :
    request ⟨false, 200, none⟩ = Except.error ReqErr.transport ∧
    (VariantA.tick 1 ⟨⟨false, 200, none⟩, true, ⟨true, true, true⟩⟩ =
        ⟨[LogMsg.fetchFailed], [], TickExit.nextTick⟩ ∧
      VariantB.tick 1 ⟨⟨false, 200, none⟩, true, ⟨true, true, true⟩⟩ =
        ⟨[LogMsg.fetchFailed], [], TickExit.workerReturn⟩) :=
  ⟨rfl, (tick_error_policy 1 ⟨⟨false, 200, none⟩, true, ⟨true, true, true⟩⟩).1
    ReqErr.transport rfl⟩

/-- C4 counterexample: when the cancellation signal and a timer firing are
simultaneously ready, choosing the ticker branch is a legal resolution of
the Go select (Go picks uniformly among ready branches), and it starts the
loop body, hence a new fetch; cancellation therefore does not take
precedence. -/
theorem select_no_precedence_cex :
    ¬ ∀ c : SelChoice, selectStep true true c ≠ some SelOutcome.startBody :=
  fun h => h SelChoice.tick rfl

/-- C4 amended: once cancellation is signalled the done branch is ready at
every select and taking it exits the worker; the loop body (and hence a
fetch) can only start through a ready timer branch, and an exit only
happens through a closed done channel; but the choice among simultaneously
ready branches is nondeterministic, so a ready timer may be chosen over
cancellation and one more tick may begin. -/
theorem select_cancellation_spec :
    (∀ r : Bool, selectStep true r SelChoice.done = some SelOutcome.exited) ∧
    (∀ (d r : Bool) (c : SelChoice),
      selectStep d r c = some SelOutcome.startBody → c = SelChoice.tick ∧ r = true) ∧
    (∀ (d r : Bool) (c : SelChoice),
      selectStep d r c = some SelOutcome.exited → c = SelChoice.done ∧ d = true) := by
  refine ⟨fun r => rfl, ?_, ?_⟩ <;>
  · intro d r c h
    cases c <;> cases d <;> cases r <;> simp_all [selectStep]

theorem select_cancellation_spec_witness :
    selectStep true true SelChoice.tick = some SelOutcome.startBody ∧
    (SelChoice.tick = SelChoice.tick ∧ true = true) :=
  ⟨rfl, select_cancellation_spec.2.1 true true SelChoice.tick rfl⟩

/-- C5: fine-variant aggregation with one configured input on the raw rows
[[100,500],[120,700]] yields the series [[100,0.5],[120,0.7]] and current
total 0.7; in general every well-formed row contributes one series point
with its value divided by 1000, and the reported total is the converted
channel value of the last processed row (0 when there is none). -/
theorem variantB_aggregation_spec :
    VariantB.aggregate 1 [[100, 500], [120, 700]] =
      Except.ok (7/10, [[(100, 1/2), (120, 7/10)]]) ∧
    ∀ rows : List Row, (∀ r ∈ rows, 2 ≤ r.length) →
      VariantB.aggregate 1 rows =
        Except.ok ((rows.getLast?.map fun r => nth r 1 / 1000).getD 0,
          [rows.map fun r => (nth r 0, nth r 1 / 1000)]) := by
  constructor
  · norm_num [VariantB.aggregate, foldE, VariantB.aggRow, VariantB.chanStep, getVal,
      List.range_succ, List.range_zero]
  · intro rows h
    have hfold := foldB_one rows 0 [] h
    simpa [VariantB.aggregate] using hfold

theorem variantB_aggregation_spec_witness :
    (∀ r ∈ ([[(40 : ℚ), 2000]] : List Row), 2 ≤ r.length) ∧
    VariantB.aggregate 1 [[(40 : ℚ), 2000]] =
      Except.ok (((([[(40 : ℚ), 2000]] : List Row).getLast?.map fun r => nth r 1 / 1000).getD 0),
        [([[(40 : ℚ), 2000]] : List Row).map fun r => (nth r 0, nth r 1 / 1000)]) :=
  ⟨by decide, variantB_aggregation_spec.2 [[(40 : ℚ), 2000]] (by decide)⟩

/-- C6: coarse-variant aggregation with one configured input on the raw
rows [[100,500],[120,700]] yields the series [[100,500],[120,700]] and
current total 700; in general the total is channel 1 of the last raw row in
native units, and a well-formed row is emitted into the series exactly when
its truncated timestamp is divisible by 20. -/
theorem variantA_aggregation_spec :
    VariantA.aggregate 1 [[100, 500], [120, 700]] =
      Except.ok (700, [[(100, 500), (120, 700)]]) ∧
    ∀ (rows : List Row) (r : Row), rows.getLast? = some r → (∀ x ∈ rows, 2 ≤ x.length) →
      VariantA.aggregate 1 rows =
        Except.ok (nth r 1,
          [(rows.filter fun x => decide (Int.tmod (goInt (nth x 0)) 20 = 0)).map
            fun x => (nth x 0, nth x 1)]) := by
  constructor
  · norm_num [VariantA.aggregate, VariantA.currentTotal, VariantA.currentStep,
      VariantA.seriesData, VariantA.seriesRow, VariantA.chanPoint, foldE, getVal, getLastRow,
      goInt, List.range_succ, List.range_zero,
      show Int.tmod 100 20 = 0 from by decide, show Int.tmod 120 20 = 0 from by decide]
  · intro rows r hlast h
    have hcur := currentTotal_one rows r hlast (h r (mem_of_getLastSome rows r hlast))
    have hser := foldA_one rows [] h
    simp [VariantA.aggregate, VariantA.seriesData, hcur, hser]

theorem variantA_aggregation_spec_witness :
    ([[(20 : ℚ), 300]] : List Row).getLast? = some [(20 : ℚ), 300] ∧
    (∀ x ∈ ([[(20 : ℚ), 300]] : List Row), 2 ≤ x.length) ∧
    VariantA.aggregate 1 [[(20 : ℚ), 300]] =
      Except.ok (nth [(20 : ℚ), 300] 1,
        [(([[(20 : ℚ), 300]] : List Row).filter fun x =>
            decide (Int.tmod (goInt (nth x 0)) 20 = 0)).map fun x => (nth x 0, nth x 1)]) :=
  ⟨rfl, by decide, variantA_aggregation_spec.2 [[(20 : ℚ), 300]] [(20 : ℚ), 300] rfl (by decide)⟩

/-- C7 counterexample: the code accepts only status exactly 200, not the
whole 2xx range: a 201 response with a decodable body is rejected with the
unexpected-status error instead of succeeding. -/
theorem request_status201_cex :
    request ⟨true, 201, some [[1, 2]]⟩ = Except.error ReqErr.unexpectedStatus ∧
    (200 ≤ 201 ∧ 201 < 300) ∧
    (Except.error ReqErr.unexpectedStatus : Except ReqErr (List Row)) ≠
      Except.ok [[1, 2]] := ⟨rfl, by decide, by simp⟩

/-- C7 amended: the fetch succeeds exactly when the transport succeeds, the
status is exactly 200, and the body decodes as rows; a non-200 status
yields the distinct unexpected-status error, a decode failure yields the
distinct decode error, and a transport failure yields the distinct
transport error, each surfaced once to the caller with no retry. -/
theorem request_error_classes (o : NetOracle) :
    (∀ rows, request o = Except.ok rows ↔
      (o.transportOk = true ∧ o.status = 200 ∧ o.body = some rows)) ∧
    (o.transportOk = true → o.status ≠ 200 →
      request o = Except.error ReqErr.unexpectedStatus) ∧
    (o.transportOk = true → o.status = 200 → o.body = none →
      request o = Except.error ReqErr.decode) ∧
    (o.transportOk = false → request o = Except.error ReqErr.transport) := by
  obtain ⟨t, s, b⟩ := o
  refine ⟨?_, ?_, ?_, ?_⟩
  · intro rows
    constructor
    · intro hreq
      cases t <;> by_cases hs : s = 200 <;> cases b <;> simp_all [request]
    · rintro ⟨ht, hs, hb⟩
      simp only at ht hs hb
      subst ht; subst hs; subst hb
      simp [request]
  · intro ht hs
    simp only at ht hs
    subst ht
    simp [request, hs]
  · intro ht hs hb
    simp only at ht hs hb
    subst ht; subst hs; subst hb
    simp [request]
  · intro ht
    simp only at ht
    subst ht
    simp [request]

theorem request_error_classes_witness :
    ((404 : Nat) ≠ 200) ∧
    request ⟨true, 404, some []⟩ = Except.error ReqErr.unexpectedStatus :=
  ⟨by decide, (request_error_classes ⟨true, 404, some []⟩).2.1 rfl (by decide)⟩

/-- C8 counterexample: the begin parameter built at construction is the
string s-1h in both variants, not s-3600 as the claim states. -/
theorem qryVals_begin_cex :
    VariantB.qryVals [] "begin" = ["s-1h"] ∧
    VariantA.qryVals [] "begin" = ["s-1h"] ∧
    ("s-1h" : String) ≠ "s-3600" := ⟨rfl, rfl, by decide⟩

/-- C8 amended: for every configuration the query parameter set built once
at construction holds exactly the keys format=json, a resolution policy
(high in the fine variant, low in the coarse one), a missing-sample policy
(null respectively skip), begin=s-1h, end=s, group=auto, and a select list
[time.utc.unix,input1,...,inputN] preserving the configured input order;
every other key is absent. -/
theorem qryVals_content (inputs : List String) (k : String) :
    (VariantB.qryVals inputs "format" = ["json"] ∧
      VariantB.qryVals inputs "resolution" = ["high"] ∧
      VariantB.qryVals inputs "missing" = ["null"] ∧
      VariantB.qryVals inputs "begin" = ["s-1h"] ∧
      VariantB.qryVals inputs "end" = ["s"] ∧
      VariantB.qryVals inputs "group" = ["auto"] ∧
      VariantB.qryVals inputs "select" = [selectValue inputs] ∧
      VariantA.qryVals inputs "format" = ["json"] ∧
      VariantA.qryVals inputs "resolution" = ["low"] ∧
      VariantA.qryVals inputs "missing" = ["skip"] ∧
      VariantA.qryVals inputs "begin" = ["s-1h"] ∧
      VariantA.qryVals inputs "end" = ["s"] ∧
      VariantA.qryVals inputs "group" = ["auto"] ∧
      VariantA.qryVals inputs "select" = [selectValue inputs] ∧
      selectValue ["a", "b"] = "[time.utc.unix,a,b]") ∧
    (k ≠ "format" → k ≠ "resolution" → k ≠ "missing" → k ≠ "begin" → k ≠ "end" →
      k ≠ "group" → k ≠ "select" →
      VariantB.qryVals inputs k = [] ∧ VariantA.qryVals inputs k = []) := by
  constructor
  · exact ⟨rfl, rfl, rfl, rfl, rfl, rfl, rfl, rfl, rfl, rfl, rfl, rfl, rfl, rfl, rfl⟩
  · intro h1 h2 h3 h4 h5 h6 h7
    constructor <;>
      simp [VariantB.qryVals, VariantA.qryVals, valuesSet, VariantB.qryInit, VariantA.qryInit,
        h1, h2, h3, h4, h5, h6, h7]

theorem qryVals_content_witness :
    (("other" : String) ≠ "format") ∧
    VariantB.qryVals ["a"] "other" = [] ∧ VariantA.qryVals ["a"] "other" = [] :=
  ⟨by decide,
    ((qryVals_content ["a"] "other").2 (by decide) (by decide) (by decide) (by decide)
      (by decide) (by decide) (by decide)).1,
    ((qryVals_content ["a"] "other").2 (by decide) (by decide) (by decide) (by decide)
      (by decide) (by decide) (by decide)).2⟩

/-- C9 counterexample: in the coarse variant (part_000) the current-value
mutation is issued before the series is encoded, so a tick whose series
encoding fails reaches the render stage (one mutation is issued) yet never
attempts the series and chart mutations, refuting the claim that all three
mutations are issued on every tick that reaches the render stage. -/
theorem variantA_encode_skip_cex :
    (VariantA.tick 1 ⟨⟨true, 200, some [[100, 500]]⟩, false, ⟨true, true, true⟩⟩).mutations =
      [MutTag.current] ∧
    ([MutTag.current] : List MutTag) ≠ [] ∧
    ([MutTag.current] : List MutTag) ≠ [MutTag.current, MutTag.series, MutTag.chart] :=
  ⟨by decide, by decide, by decide⟩

/-- C9 amended: on every tick whose fetch, aggregation and series encoding
succeed, both variants issue the three display mutations in the fixed
order current-value, series, chart, and a failure of any one mutation is
logged without preventing the remaining mutations; in the coarse variant a
series-encoding failure after the current-value mutation abandons the tick,
skipping the series and chart mutations. -/
theorem render_mutation_order (l : Nat) (env : TickEnv) (raw : List Row)
    (hreq : request env.net = Except.ok raw) (henc : env.encodeOk = true) :
    (∀ agg, VariantA.aggregate l raw = Except.ok agg →
      (VariantA.tick l env).mutations = [MutTag.current, MutTag.series, MutTag.chart] ∧
      (env.eval.currentOk = false → LogMsg.currentFailed ∈ (VariantA.tick l env).logs) ∧
      (env.eval.seriesOk = false → LogMsg.seriesFailed ∈ (VariantA.tick l env).logs) ∧
      (env.eval.chartOk = false → LogMsg.chartFailed ∈ (VariantA.tick l env).logs)) ∧
    (∀ agg, VariantB.aggregate l raw = Except.ok agg →
      (VariantB.tick l env).mutations = [MutTag.current, MutTag.series, MutTag.chart] ∧
      (env.eval.currentOk = false → LogMsg.currentFailed ∈ (VariantB.tick l env).logs) ∧
      (env.eval.seriesOk = false → LogMsg.seriesFailed ∈ (VariantB.tick l env).logs) ∧
      (env.eval.chartOk = false → LogMsg.chartFailed ∈ (VariantB.tick l env).logs)) := by
  constructor
  · intro agg hagg
    refine ⟨by simp [VariantA.tick, hreq, hagg, henc], ?_, ?_, ?_⟩ <;>
    · intro hfl
      simp [VariantA.tick, hreq, hagg, henc, hfl]
  · intro agg hagg
    refine ⟨by simp [VariantB.tick, hreq, hagg, henc], ?_, ?_, ?_⟩ <;>
    · intro hfl
      simp [VariantB.tick, hreq, hagg, henc, hfl]

theorem render_mutation_order_witness :
    (VariantA.tick 1 ⟨⟨true, 200, some [[40, 7]]⟩, true, ⟨false, true, true⟩⟩).mutations =
      [MutTag.current, MutTag.series, MutTag.chart] ∧
    (VariantB.tick 1 ⟨⟨true, 200, some [[40, 7]]⟩, true, ⟨false, true, true⟩⟩).mutations =
      [MutTag.current, MutTag.series, MutTag.chart] ∧
    LogMsg.currentFailed ∈
      (VariantA.tick 1 ⟨⟨true, 200, some [[40, 7]]⟩, true, ⟨false, true, true⟩⟩).logs :=
  ⟨((render_mutation_order 1 ⟨⟨true, 200, some [[40, 7]]⟩, true, ⟨false, true, true⟩⟩
      [[40, 7]] rfl rfl).1 (7, [[(40, 7)]])
      (by norm_num [VariantA.aggregate, VariantA.currentTotal, VariantA.currentStep,
        VariantA.seriesData, VariantA.seriesRow, VariantA.chanPoint, foldE, getVal, getLastRow,
        goInt, List.range_succ, List.range_zero,
        show Int.tmod 40 20 = 0 from by decide])).1,
    ((render_mutation_order 1 ⟨⟨true, 200, some [[40, 7]]⟩, true, ⟨false, true, true⟩⟩
      [[40, 7]] rfl rfl).2 (7 / 1000, [[(40, 7 / 1000)]])
      (by norm_num [VariantB.aggregate, foldE, VariantB.aggRow, VariantB.chanStep, getVal,
        List.range_succ, List.range_zero])).1,
    ((render_mutation_order 1 ⟨⟨true, 200, some [[40, 7]]⟩, true, ⟨false, true, true⟩⟩
      [[40, 7]] rfl rfl).1 (7, [[(40, 7)]])
      (by norm_num [VariantA.aggregate, VariantA.currentTotal, VariantA.currentStep,
        VariantA.seriesData, VariantA.seriesRow, VariantA.chanPoint, foldE, getVal, getLastRow,
        goInt, List.range_succ, List.range_zero,
        show Int.tmod 40 20 = 0 from by decide])).2.1 rfl⟩

/-- C10 counterexample: calling Close a second time closes the already
closed done channel, which panics, so the second call is neither a safe
no-op nor a distinct error value. -/
theorem close_twice_cex :
    (ModuleClose (ModuleClose ⟨false⟩).2).1 = CloseOutcome.panicked := rfl

/-- C10 amended: the first Close closes the done channel and succeeds; any
further Close panics by closing an already closed channel, so Close must
be called at most once. -/
theorem close_behavior :
    ModuleClose ⟨false⟩ = (CloseOutcome.ok, ⟨true⟩) ∧
    (ModuleClose ⟨true⟩).1 = CloseOutcome.panicked := ⟨rfl, rfl⟩

end IotaWatt
